import Mathlib

/-!
Shallow embedding of the session-state orchestrator found in
src/core_api/src/states/state.rs, together with theorems settling the
specification claims about it.

The file state.rs is the authority for every operation embedded here
(State::default, State::new, State::update, State::run_extensions,
State::notify_extension, State::get_ext_info_by_id,
State::get_ext_run_info_by_id, State::get_ext_list_by_id).
Auxiliary types that state.rs imports from elsewhere in the crate
(StateData, ExtensionsManager, LoadedExtension, ManifestInfo,
ExtensionInfo, Persistor, errors) are modelled from the spec and from the
way state.rs itself pattern-matches on them; each such definition carries
a doc comment saying so.

Effects are made explicit: asynchronous save calls, warnings, spawned
notification tasks and lifecycle calls are returned as traces, so that
counting and ordering claims become statements about lists.
-/

/-- Modelled from the spec: the persisted payload StateData (defined in a
sibling module, not in state.rs). Fields used by state.rs: a session id
(u8 in the source; modelled as Nat since no arithmetic is ever performed
on it), an ordered collection of open views and a collection of executed
commands. Rust derives structural equality on the field contents, which
is exactly the equality of this Lean structure. -/
structure StateData where
  id : Nat
  views : List String
  commands : List String
deriving DecidableEq

/-- Modelled from the spec: StateData has a Default instance in the crate;
its concrete contents never matter for any claim, only that it is some
fixed record. -/
def StateData.default : StateData :=
  { id := 0, views := [], commands := [] }

/-- Modelled from the spec: runtime info of a running plugin, with fields
id and name, exactly as built by the test module of state.rs. -/
structure ExtensionInfo where
  id : String
  name : String
deriving DecidableEq

/-- Modelled from the spec: the extension entry of a manifest; state.rs
reads manifest.info.extension.id. -/
structure ManifestEntry where
  id : String
deriving DecidableEq

/-- Modelled from the spec: descriptive manifest info; state.rs reads
info.extension.id. -/
structure ManifestInfo where
  extension : ManifestEntry
deriving DecidableEq

/-- Modelled from the spec: a file-backed manifest; state.rs reads
manifest.info. -/
structure Manifest where
  info : ManifestInfo
deriving DecidableEq

/-- Modelled from the spec: extension records come in three
representations: a builtin (declared) manifest, a file-backed manifest,
and a running instance. A running instance owns a shared lockable plugin
handle, modelled as an opaque handle number, plus the parent (owner) id
and its runtime info. -/
inductive LoadedExtension where
  | manifestFile (manifest : Manifest)
  | manifestBuiltin (info : ManifestInfo)
  | extensionInstance (plugin : Nat) (parent_id : String) (info : ExtensionInfo)
deriving DecidableEq

/-- Modelled from the spec: the extension catalog; state.rs only ever
iterates its extensions field in order. -/
structure ExtensionsManager where
  extensions : List LoadedExtension
deriving DecidableEq

/-- Modelled from the spec: the default catalog is empty. -/
def ExtensionsManager.default : ExtensionsManager :=
  { extensions := [] }

/-- Modelled from the spec: a language-server descriptor, opaque and keyed
by name. -/
structure LanguageServer where
  name : String
deriving DecidableEq

/-- Modelled from the spec: a storage (filesystem) backend handle; the
only implementation state.rs constructs is the local filesystem. -/
inductive Filesystem where
  | localFilesystem
deriving DecidableEq

/-- Modelled from the spec: the persistence backend capability. Its load
operation is modelled by the data it returns; save calls are recorded in
traces by the operations that perform them. -/
structure Persistor where
  load : StateData
deriving DecidableEq

/-- Modelled from the spec: the recoverable extension error kind. -/
inductive ExtensionErrors where
  | extensionNotFound
deriving DecidableEq

/-- Modelled from the spec: the crate error wrapper around extension
errors, as produced by state.rs. -/
inductive Errors where
  | ext (e : ExtensionErrors)
deriving DecidableEq

/-- The State struct of state.rs. The filesystem registry and the
language-server registry are hash maps in the source; they are modelled
as association lists (insertion order), which is faithful for every claim
here. The persistor is an optional shared handle. -/
structure State where
  filesystems : List (String × Filesystem)
  extensions_manager : ExtensionsManager
  persistor : Option Persistor
  data : StateData
  tokens : List String
  language_servers : List (String × LanguageServer)
deriving DecidableEq

/-- State::default of state.rs: registers exactly the local filesystem
under the name "local", default data, default catalog, no persistor, no
tokens, no language servers. -/
def State.default : State :=
  { filesystems := [("local", Filesystem.localFilesystem)]
    extensions_manager := ExtensionsManager.default
    persistor := none
    data := StateData.default
    tokens := []
    language_servers := [] }

/-- One operation performed on the persistence backend; used to trace
what State::new and State::update invoke. -/
inductive PersistorOp where
  | load
  | save (d : StateData)
deriving DecidableEq

/-- State::new of state.rs: calls persistor.load(), builds the data as
StateData with the given id and every other field from the loaded data,
stores the persistor, and takes all remaining fields from
State::default. The second component is the trace of persistor
operations performed during construction. -/
def State.new (id : Nat) (extensions_manager : ExtensionsManager)
    (persistor : Persistor) : State × List PersistorOp :=
  let state := persistor.load
  ({ State.default with
      data := { state with id := id }
      extensions_manager := extensions_manager
      persistor := some persistor },
   [PersistorOp.load])

/-- State::get_fs_by_name of state.rs: map lookup returning a clone of
the shared handle. -/
def State.get_fs_by_name (s : State) (filesystem : String) :
    Option Filesystem :=
  s.filesystems.lookup filesystem

/-- The result of State::update: the state afterwards, the list of
arguments passed to persistor save calls, and the ids mentioned by
emitted warnings. -/
structure UpdateResult where
  state : State
  saves : List StateData
  warnings : List Nat
deriving DecidableEq

/-- State::update of state.rs, translated line by line: any_diff starts
false, is set if the views differ, is set if the commands differ; then if
a persistor is present and any_diff holds, persistor save is called with
the CURRENT self.data (the source never assigns new_data into self.data);
if no persistor is present a warning naming self.data.id is emitted. -/
def State.update (s : State) (new_data : StateData) : UpdateResult :=
  let any_diff := false
  let any_diff := if s.data.views ≠ new_data.views then true else any_diff
  let any_diff := if s.data.commands ≠ new_data.commands then true else any_diff
  match s.persistor with
  | some _ =>
      if any_diff then
        { state := s, saves := [s.data], warnings := [] }
      else
        { state := s, saves := [], warnings := [] }
  | none =>
      { state := s, saves := [], warnings := [s.data.id] }

/-- Modelled from the spec: the merge the spec describes for apply:
replace the live data contents with new_data while carrying the id over
from the pre-merge live data. Used to compare the actual behaviour of
State::update against the specified merge. -/
def mergeData (old new_data : StateData) : StateData :=
  { new_data with id := old.id }

/-- State::get_ext_info_by_id of state.rs: the closure passed to find_map
over the catalog. A file-backed manifest whose manifest id equals ext_id
yields its info; a builtin manifest whose id equals ext_id yields its
info; a running instance never matches. -/
def manifestInfoMatching (ext_id : String) :
    LoadedExtension → Option ManifestInfo
  | .manifestFile manifest =>
      if manifest.info.extension.id = ext_id then some manifest.info else none
  | .manifestBuiltin info =>
      if info.extension.id = ext_id then some info else none
  | .extensionInstance _ _ _ => none

/-- State::get_ext_info_by_id of state.rs: find_map over the catalog with
the manifest-matching closure, then ok_or ExtensionNotFound. -/
def State.get_ext_info_by_id (s : State) (ext_id : String) :
    Except Errors ManifestInfo :=
  let result :=
    s.extensions_manager.extensions.findSome? (manifestInfoMatching ext_id)
  match result with
  | some info => Except.ok info
  | none => Except.error (Errors.ext ExtensionErrors.extensionNotFound)

/-- State::get_ext_run_info_by_id of state.rs: the closure passed to
find_map over the catalog. Only a running instance whose own runtime id
equals ext_id yields its info. -/
def runtimeInfoMatching (ext_id : String) :
    LoadedExtension → Option ExtensionInfo
  | .extensionInstance _ _ info =>
      if info.id = ext_id then some info else none
  | _ => none

/-- State::get_ext_run_info_by_id of state.rs: find_map over the catalog
with the instance-matching closure, then ok_or ExtensionNotFound. -/
def State.get_ext_run_info_by_id (s : State) (ext_id : String) :
    Except Errors ExtensionInfo :=
  let result :=
    s.extensions_manager.extensions.findSome? (runtimeInfoMatching ext_id)
  match result with
  | some info => Except.ok info
  | none => Except.error (Errors.ext ExtensionErrors.extensionNotFound)

/-- State::get_ext_list_by_id of state.rs: the closure passed to
filter_map over the catalog. Builtin and file-backed manifests yield
their manifest id; running instances yield nothing. -/
def manifestIdOf : LoadedExtension → Option String
  | .manifestBuiltin info => some info.extension.id
  | .manifestFile manifest => some manifest.info.extension.id
  | .extensionInstance _ _ _ => none

/-- State::get_ext_list_by_id of state.rs: filter_map over the catalog
collecting manifest ids. -/
def State.get_ext_list_by_id (s : State) : List String :=
  s.extensions_manager.extensions.filterMap manifestIdOf

/-- A message broadcast to plugins; opaque and cloneable in the source,
modelled by an opaque payload number. -/
structure ClientMessages where
  payload : Nat
deriving DecidableEq

/-- One spawned notification task of State::notify_extension: the task
locks the given plugin handle and calls notify with the message. -/
structure Delivery where
  plugin : Nat
  message : ClientMessages
deriving DecidableEq

/-- State::notify_extension of state.rs, loop body: for each record, if
it is a running instance whose parent id equals extension_id, spawn one
task that delivers the message to that instance; otherwise nothing. The
returned list is the spawned tasks, in loop order; the caller never
awaits them and gets no result channel. -/
def notifyExtensionLoop (extension_id : String) (message : ClientMessages) :
    List LoadedExtension → List Delivery
  | [] => []
  | ext :: rest =>
      match ext with
      | .extensionInstance plugin parent_id _ =>
          if parent_id = extension_id then
            { plugin := plugin, message := message } ::
              notifyExtensionLoop extension_id message rest
          else
            notifyExtensionLoop extension_id message rest
      | _ => notifyExtensionLoop extension_id message rest

/-- State::notify_extension of state.rs: run the loop over the catalog. -/
def State.notify_extension (s : State) (extension_id : String)
    (message : ClientMessages) : List Delivery :=
  notifyExtensionLoop extension_id message s.extensions_manager.extensions

/-- One event of the State::run_extensions pass over an instance: the
single await point (acquiring the instance lock), then unload, then
init, all on that instance. -/
inductive ReloadEvent where
  | lockAcquire (plugin : Nat)
  | unload (plugin : Nat)
  | init (plugin : Nat)
deriving DecidableEq

/-- State::run_extensions of state.rs, loop body: for each record, if it
is a running instance, await its lock, call unload, call init; manifest
records are skipped. The returned list is the full sequential event
trace. -/
def runExtensionsLoop : List LoadedExtension → List ReloadEvent
  | [] => []
  | ext :: rest =>
      match ext with
      | .extensionInstance plugin _ _ =>
          ReloadEvent.lockAcquire plugin :: ReloadEvent.unload plugin ::
            ReloadEvent.init plugin :: runExtensionsLoop rest
      | _ => runExtensionsLoop rest

/-- State::run_extensions of state.rs: run the loop over the catalog. -/
def State.run_extensions (s : State) : List ReloadEvent :=
  runExtensionsLoop s.extensions_manager.extensions

/-- The plugin handle of a record when the record is a running instance;
spec-side projection used to phrase the dispatcher claims. -/
def pluginOf : LoadedExtension → Option Nat
  | .extensionInstance plugin _ _ => some plugin
  | _ => none

/-- The handle a notification targeted at extension_id would reach for a
given record: the plugin handle when the record is a running instance
whose parent id is extension_id; spec-side projection. -/
def instanceTargetOf (extension_id : String) : LoadedExtension → Option Nat
  | .extensionInstance plugin parent_id _ =>
      if parent_id = extension_id then some plugin else none
  | _ => none

/-- Recognizes the lock-acquisition (await) events of a reload trace;
spec-side projection. -/
def isLockEvent : ReloadEvent → Bool
  | .lockAcquire _ => true
  | _ => false

/-- Modelled from the spec: list_ids returns the ids of all declared
(builtin) and file-backed records in catalog iteration order, and no id
of a running instance. This definition follows the words of the spec and
is compared with the source translation State.get_ext_list_by_id. -/
def declaredIdsSpec : List LoadedExtension → List String
  | [] => []
  | .manifestBuiltin info :: rest => info.extension.id :: declaredIdsSpec rest
  | .manifestFile manifest :: rest =>
      manifest.info.extension.id :: declaredIdsSpec rest
  | .extensionInstance _ _ _ :: rest => declaredIdsSpec rest

/-- A concrete persistence backend used by the concrete examples below. -/
def examplePersistor : Persistor :=
  { load := StateData.default }

/-- A concrete state with a configured persistence backend and nonempty
live data, used by the update examples. -/
def exampleBaseState : State :=
  { State.default with
      data := { id := 7, views := ["v1"], commands := ["c1"] }
      persistor := some examplePersistor }

/-- A concrete payload whose views differ from those of
exampleBaseState. -/
def c1NewData : StateData :=
  { id := 7, views := ["v2"], commands := ["c1"] }

/-- A concrete state without a persistence backend, used by the
no-persistor example. -/
def exampleNoPersistorState : State :=
  { State.default with
      data := { id := 2, views := ["v1"], commands := [] } }

/-- A concrete payload whose views differ from those of
exampleNoPersistorState. -/
def c3NewData : StateData :=
  { id := 2, views := ["v2"], commands := [] }

/-- C1: code-bug evidence at a concrete input. With a persistence backend
configured and differing views, State.update does invoke save exactly
once, but with the pre-merge live data — not the post-merge data the
claim requires — and the live data is never replaced by new_data: after
the call the state still holds the old data, which differs from the
merged payload mergeData. -/
theorem update_saves_stale_data :
    (exampleBaseState.update c1NewData).saves = [exampleBaseState.data]
  ∧ exampleBaseState.data ≠ mergeData exampleBaseState.data c1NewData
  ∧ (exampleBaseState.update c1NewData).state.data = exampleBaseState.data
  ∧ (exampleBaseState.update c1NewData).state.data
      ≠ mergeData exampleBaseState.data c1NewData := by
  decide

/-- C2: with a persistence backend configured and new_data whose views
and commands are structurally equal to those of the live data, the save
trace of State.update is empty: the backend is never invoked. Equality
here is equality of field contents, so a freshly built but logically
identical payload never triggers a save. -/
theorem update_identical_no_save (s : State) (p : Persistor)
    (new_data : StateData) (hp : s.persistor = some p)
    (hv : s.data.views = new_data.views)
    (hc : s.data.commands = new_data.commands) :
    (s.update new_data).saves = [] := by
  simp [State.update, hp, hv, hc]

/-- C2 witness: a freshly built payload that agrees with the live data on
views and commands but has a different id triggers no save. -/
theorem update_identical_no_save_witness :
    (exampleBaseState.update
        { id := 99, views := ["v1"], commands := ["c1"] }).saves = [] :=
  update_identical_no_save exampleBaseState examplePersistor
    { id := 99, views := ["v1"], commands := ["c1"] } rfl rfl rfl

/-- C3: behaviour at a concrete input with no persistence backend
configured. The call completes (the embedding is a total function),
performs no save, and emits exactly one warning naming the state id; but
the merge does not proceed: the state is returned unchanged and its data
differs from the merged payload the claim requires. -/
theorem update_no_persistor_eval :
    (exampleNoPersistorState.update c3NewData).saves = []
  ∧ (exampleNoPersistorState.update c3NewData).warnings
      = [exampleNoPersistorState.data.id]
  ∧ (exampleNoPersistorState.update c3NewData).state = exampleNoPersistorState
  ∧ (exampleNoPersistorState.update c3NewData).state.data
      ≠ mergeData exampleNoPersistorState.data c3NewData := by
  decide

/-- C10: State.update leaves every field of the state unchanged — data,
tokens, filesystems, catalog, persistor and language servers alike; its
only effects are the optional save call and the optional warning, both
recorded in the result traces. -/
theorem update_frame (s : State) (new_data : StateData) :
    (s.update new_data).state = s := by
  cases hp : s.persistor with
  | none => simp only [State.update, hp]
  | some p =>
      simp only [State.update, hp]
      split
      · rfl
      · split <;> rfl

/-- The runtime lookup fails exactly when the underlying find_map over
the catalog produces nothing. -/
theorem get_run_eq_error_iff (s : State) (x : String) :
    (s.get_ext_run_info_by_id x
        = Except.error (Errors.ext ExtensionErrors.extensionNotFound))
      ↔ s.extensions_manager.extensions.findSome? (runtimeInfoMatching x)
          = none := by
  unfold State.get_ext_run_info_by_id
  cases s.extensions_manager.extensions.findSome? (runtimeInfoMatching x) <;>
    simp

/-- The runtime lookup succeeds with i exactly when the underlying
find_map over the catalog produces i. -/
theorem get_run_eq_ok_iff (s : State) (x : String) (i : ExtensionInfo) :
    s.get_ext_run_info_by_id x = Except.ok i
      ↔ s.extensions_manager.extensions.findSome? (runtimeInfoMatching x)
          = some i := by
  unfold State.get_ext_run_info_by_id
  cases s.extensions_manager.extensions.findSome? (runtimeInfoMatching x) <;>
    simp

/-- A record can satisfy the runtime-matching closure only by being a
running instance carrying exactly the returned info, whose own id is the
searched id. -/
theorem runtimeInfoMatching_some {x : String} {r : LoadedExtension}
    {i : ExtensionInfo} (h : runtimeInfoMatching x r = some i) :
    i.id = x ∧ ∃ plugin pid,
      r = LoadedExtension.extensionInstance plugin pid i := by
  cases r with
  | manifestFile m => simp [runtimeInfoMatching] at h
  | manifestBuiltin info => simp [runtimeInfoMatching] at h
  | extensionInstance plugin pid info =>
      by_cases hid : info.id = x
      · simp only [runtimeInfoMatching, hid, if_pos, Option.some.injEq] at h
        subst h
        exact ⟨hid, plugin, pid, rfl⟩
      · simp [runtimeInfoMatching, hid] at h

/-- C4: get_ext_run_info_by_id searches only running-instance records and
matches on the instance runtime id. It fails with ExtensionNotFound
exactly when no record matches as a running instance with that id; a
successful lookup returns the info of the first matching instance record
in catalog order; an existing instance with the id guarantees success
with that id; manifest records — declared or file-backed — never match;
and an instance never matches through its parent id when its own id
differs. -/
theorem run_info_by_id_spec (s : State) (x : String) :
    (s.get_ext_run_info_by_id x
        = Except.error (Errors.ext ExtensionErrors.extensionNotFound)
      ↔ ∀ r ∈ s.extensions_manager.extensions, runtimeInfoMatching x r = none)
  ∧ (∀ i, s.get_ext_run_info_by_id x = Except.ok i →
      ∃ l₁ plugin pid l₂,
        s.extensions_manager.extensions
          = l₁ ++ LoadedExtension.extensionInstance plugin pid i :: l₂
        ∧ i.id = x
        ∧ ∀ r ∈ l₁, runtimeInfoMatching x r = none)
  ∧ ((∃ plugin pid i,
        LoadedExtension.extensionInstance plugin pid i
          ∈ s.extensions_manager.extensions ∧ i.id = x) →
      ∃ i, s.get_ext_run_info_by_id x = Except.ok i ∧ i.id = x)
  ∧ (∀ m, runtimeInfoMatching x (LoadedExtension.manifestFile m) = none)
  ∧ (∀ info,
      runtimeInfoMatching x (LoadedExtension.manifestBuiltin info) = none)
  ∧ (∀ plugin pid info, info.id ≠ x →
      runtimeInfoMatching x
        (LoadedExtension.extensionInstance plugin pid info) = none) := by
  refine ⟨?_, ?_, ?_, fun m => rfl, fun info => rfl, ?_⟩
  · rw [get_run_eq_error_iff]
    exact List.findSome?_eq_none_iff
  · intro i hok
    have hfs := (get_run_eq_ok_iff s x i).mp hok
    rcases List.findSome?_eq_some_iff.mp hfs with ⟨l₁, a, l₂, hl, ha, hnone⟩
    rcases runtimeInfoMatching_some ha with ⟨hid, plugin, pid, rfl⟩
    exact ⟨l₁, plugin, pid, l₂, hl, hid, hnone⟩
  · rintro ⟨plugin, pid, i, hmem, hid⟩
    have hmatch : runtimeInfoMatching x
        (LoadedExtension.extensionInstance plugin pid i) = some i := by
      simp [runtimeInfoMatching, hid]
    rcases hsome : s.extensions_manager.extensions.findSome?
        (runtimeInfoMatching x) with _ | j
    · exact absurd (List.findSome?_eq_none_iff.mp hsome _ hmem)
        (by simp [hmatch])
    · rcases List.findSome?_eq_some_iff.mp hsome with ⟨l₁, a, l₂, hl, ha, hn⟩
      rcases runtimeInfoMatching_some ha with ⟨hjid, _, _, _⟩
      exact ⟨j, (get_run_eq_ok_iff s x j).mpr hsome, hjid⟩
  · intro plugin pid info h
    simp [runtimeInfoMatching, h]

/-- A concrete catalog holding one declared manifest, one file-backed
manifest, and two running instances with distinct parents, used by the
catalog examples. -/
def exampleCatalogState : State :=
  { State.default with
      extensions_manager :=
        { extensions :=
            [ LoadedExtension.manifestBuiltin ⟨⟨"builtin-ext"⟩⟩,
              LoadedExtension.extensionInstance 1 "group-1"
                ⟨"sample", "sample"⟩,
              LoadedExtension.manifestFile ⟨⟨⟨"file-ext"⟩⟩⟩,
              LoadedExtension.extensionInstance 2 "group-2"
                ⟨"other", "other"⟩ ] } }

/-- C4 witness: in the concrete catalog, looking up the runtime id of the
loaded instance succeeds with info carrying that id. -/
theorem run_info_by_id_spec_witness :
    ∃ i, exampleCatalogState.get_ext_run_info_by_id "sample" = Except.ok i
      ∧ i.id = "sample" :=
  (run_info_by_id_spec exampleCatalogState "sample").2.2.1
    ⟨1, "group-1", ⟨"sample", "sample"⟩, by decide, rfl⟩

/-- The manifest lookup fails exactly when the underlying find_map over
the catalog produces nothing. -/
theorem get_info_eq_error_iff (s : State) (y : String) :
    (s.get_ext_info_by_id y
        = Except.error (Errors.ext ExtensionErrors.extensionNotFound))
      ↔ s.extensions_manager.extensions.findSome? (manifestInfoMatching y)
          = none := by
  unfold State.get_ext_info_by_id
  cases s.extensions_manager.extensions.findSome? (manifestInfoMatching y) <;>
    simp

/-- The manifest lookup succeeds with i exactly when the underlying
find_map over the catalog produces i. -/
theorem get_info_eq_ok_iff (s : State) (y : String) (i : ManifestInfo) :
    s.get_ext_info_by_id y = Except.ok i
      ↔ s.extensions_manager.extensions.findSome? (manifestInfoMatching y)
          = some i := by
  unfold State.get_ext_info_by_id
  cases s.extensions_manager.extensions.findSome? (manifestInfoMatching y) <;>
    simp

/-- Any info produced by the manifest-matching closure carries the
searched manifest id. -/
theorem manifestInfoMatching_some {y : String} {r : LoadedExtension}
    {i : ManifestInfo} (h : manifestInfoMatching y r = some i) :
    i.extension.id = y := by
  cases r with
  | manifestFile m =>
      by_cases hid : m.info.extension.id = y
      · simp only [manifestInfoMatching, hid, if_pos, Option.some.injEq] at h
        subst h
        exact hid
      · simp [manifestInfoMatching, hid] at h
  | manifestBuiltin info =>
      by_cases hid : info.extension.id = y
      · simp only [manifestInfoMatching, hid, if_pos, Option.some.injEq] at h
        subst h
        exact hid
      · simp [manifestInfoMatching, hid] at h
  | extensionInstance plugin pid info => simp [manifestInfoMatching] at h

/-- C5: get_ext_info_by_id searches only declared (builtin) and
file-backed manifest records, first match in catalog order wins. It
fails with ExtensionNotFound exactly when no record matches as a
manifest with that id — running instances never match, so an id that
occurs only as an instance runtime id fails no matter how many instances
exist; a successful lookup returns the info of the first matching
manifest record, and any record matching as a manifest guarantees
success with that id. -/
theorem info_by_id_spec (s : State) (y : String) :
    (s.get_ext_info_by_id y
        = Except.error (Errors.ext ExtensionErrors.extensionNotFound)
      ↔ ∀ r ∈ s.extensions_manager.extensions,
          manifestInfoMatching y r = none)
  ∧ (∀ i, s.get_ext_info_by_id y = Except.ok i →
      ∃ l₁ r l₂,
        s.extensions_manager.extensions = l₁ ++ r :: l₂
        ∧ manifestInfoMatching y r = some i
        ∧ i.extension.id = y
        ∧ ∀ q ∈ l₁, manifestInfoMatching y q = none)
  ∧ ((∃ r ∈ s.extensions_manager.extensions,
        manifestInfoMatching y r ≠ none) →
      ∃ i, s.get_ext_info_by_id y = Except.ok i ∧ i.extension.id = y)
  ∧ (∀ plugin pid info,
      manifestInfoMatching y
        (LoadedExtension.extensionInstance plugin pid info) = none) := by
  refine ⟨?_, ?_, ?_, fun plugin pid info => rfl⟩
  · rw [get_info_eq_error_iff]
    exact List.findSome?_eq_none_iff
  · intro i hok
    have hfs := (get_info_eq_ok_iff s y i).mp hok
    rcases List.findSome?_eq_some_iff.mp hfs with ⟨l₁, a, l₂, hl, ha, hnone⟩
    exact ⟨l₁, a, l₂, hl, ha, manifestInfoMatching_some ha, hnone⟩
  · rintro ⟨r, hmem, hne⟩
    rcases hsome : s.extensions_manager.extensions.findSome?
        (manifestInfoMatching y) with _ | j
    · exact absurd (List.findSome?_eq_none_iff.mp hsome _ hmem) hne
    · rcases List.findSome?_eq_some_iff.mp hsome with ⟨l₁, a, l₂, hl, ha, hn⟩
      exact ⟨j, (get_info_eq_ok_iff s y j).mpr hsome,
        manifestInfoMatching_some ha⟩

/-- C5 witness: in the concrete catalog the declared manifest id is
found with its own info, and the id that occurs only as an instance
runtime id fails with ExtensionNotFound. -/
theorem info_by_id_spec_witness :
    (∃ i, exampleCatalogState.get_ext_info_by_id "builtin-ext"
        = Except.ok i ∧ i.extension.id = "builtin-ext")
  ∧ exampleCatalogState.get_ext_info_by_id "sample"
      = Except.error (Errors.ext ExtensionErrors.extensionNotFound) :=
  ⟨(info_by_id_spec exampleCatalogState "builtin-ext").2.2.1
      ⟨LoadedExtension.manifestBuiltin ⟨⟨"builtin-ext"⟩⟩, by decide, by decide⟩,
   (info_by_id_spec exampleCatalogState "sample").1.mpr (by decide)⟩

/-- The source translation of list_ids agrees with the spec-side
recursion over the catalog, record by record. -/
theorem filterMap_manifestIdOf_eq (l : List LoadedExtension) :
    l.filterMap manifestIdOf = declaredIdsSpec l := by
  induction l with
  | nil => rfl
  | cons r rest ih =>
      cases r <;>
        simp [declaredIdsSpec, List.filterMap_cons, manifestIdOf, ih]

/-- C6: get_ext_list_by_id returns exactly the declared (builtin) and
file-backed manifest ids in catalog iteration order — it coincides with
the spec-side recursion declaredIdsSpec — an id is in the result exactly
when some record yields it as a manifest id, and an id yielded by no
manifest record, e.g. one occurring only as an instance runtime id, is
excluded. -/
theorem list_ids_spec (s : State) :
    s.get_ext_list_by_id = declaredIdsSpec s.extensions_manager.extensions
  ∧ (∀ x, x ∈ s.get_ext_list_by_id
      ↔ ∃ r ∈ s.extensions_manager.extensions, manifestIdOf r = some x)
  ∧ (∀ x, (∀ r ∈ s.extensions_manager.extensions, manifestIdOf r ≠ some x) →
      x ∉ s.get_ext_list_by_id) := by
  refine ⟨filterMap_manifestIdOf_eq _, ?_, ?_⟩
  · intro x
    simp [State.get_ext_list_by_id, List.mem_filterMap]
  · intro x hall hmem
    rcases List.mem_filterMap.mp hmem with ⟨r, hr, hid⟩
    exact hall r hr hid

/-- C6 witness: the concrete catalog lists exactly its two manifest ids,
and the instance-only runtime id is excluded. -/
theorem list_ids_spec_witness :
    "sample" ∉ exampleCatalogState.get_ext_list_by_id
  ∧ exampleCatalogState.get_ext_list_by_id = ["builtin-ext", "file-ext"] :=
  ⟨(list_ids_spec exampleCatalogState).2.2 "sample" (by decide), by decide⟩

/-- The notification loop spawns, in catalog order, exactly one delivery
per record whose targeted handle exists, carrying the given message. -/
theorem notifyExtensionLoop_eq (oid : String) (m : ClientMessages)
    (l : List LoadedExtension) :
    notifyExtensionLoop oid m l
      = (l.filterMap (instanceTargetOf oid)).map
          (fun p => { plugin := p, message := m }) := by
  induction l with
  | nil => rfl
  | cons r rest ih =>
      cases r with
      | extensionInstance plugin pid info =>
          by_cases hp : pid = oid <;>
            simp [notifyExtensionLoop, instanceTargetOf, hp, ih,
              List.filterMap_cons]
      | manifestFile m0 =>
          simp [notifyExtensionLoop, instanceTargetOf, ih,
            List.filterMap_cons]
      | manifestBuiltin info =>
          simp [notifyExtensionLoop, instanceTargetOf, ih,
            List.filterMap_cons]

/-- For each handle, the notification loop delivers once per matching
instance record with that handle. -/
theorem notifyExtensionLoop_countP (oid : String) (m : ClientMessages)
    (p : Nat) (l : List LoadedExtension) :
    (notifyExtensionLoop oid m l).countP (fun d => d.plugin == p)
      = l.countP (fun r => instanceTargetOf oid r == some p) := by
  induction l with
  | nil => rfl
  | cons r rest ih =>
      cases r with
      | extensionInstance plugin pid info =>
          by_cases hp : pid = oid
          · by_cases hplug : plugin = p <;>
              simp [notifyExtensionLoop, instanceTargetOf, hp, hplug,
                List.countP_cons, ih]
          · simp [notifyExtensionLoop, instanceTargetOf, hp,
              List.countP_cons, ih]
      | manifestFile m0 =>
          simp [notifyExtensionLoop, instanceTargetOf, List.countP_cons, ih]
      | manifestBuiltin info =>
          simp [notifyExtensionLoop, instanceTargetOf, List.countP_cons, ih]

/-- C7: notify_extension spawns, in catalog order, exactly one delivery
task per running-instance record whose parent id equals the targeted
owner id — the spawned-task list equals the matching handles mapped to
deliveries — every spawned task carries the given message, and for every
handle the number of deliveries to it equals the number of matching
instance records with that handle: one for each matching instance, zero
for an instance with a different parent id and zero for a manifest-only
record. The caller receives only the spawned-task list, with no
completion or error channel. -/
theorem notify_targeted_spec (s : State) (oid : String) (m : ClientMessages) :
    s.notify_extension oid m
      = (s.extensions_manager.extensions.filterMap
          (instanceTargetOf oid)).map (fun p => { plugin := p, message := m })
  ∧ (∀ d ∈ s.notify_extension oid m, d.message = m)
  ∧ (∀ p, (s.notify_extension oid m).countP (fun d => d.plugin == p)
      = s.extensions_manager.extensions.countP
          (fun r => instanceTargetOf oid r == some p)) := by
  refine ⟨notifyExtensionLoop_eq _ _ _, ?_, ?_⟩
  · intro d hd
    rw [State.notify_extension, notifyExtensionLoop_eq] at hd
    rcases List.mem_map.mp hd with ⟨p, hp, rfl⟩
    rfl
  · intro p
    exact notifyExtensionLoop_countP oid m p _

/-- A concrete state with two running instances under distinct parent
ids, used by the notification example. -/
def exampleNotifyState : State :=
  { State.default with
      extensions_manager :=
        { extensions :=
            [ LoadedExtension.extensionInstance 1 "group-1"
                ⟨"inst-1", "inst-1"⟩,
              LoadedExtension.extensionInstance 2 "group-2"
                ⟨"inst-2", "inst-2"⟩ ] } }

/-- A concrete message used by the notification example. -/
def exampleMessage : ClientMessages :=
  { payload := 42 }

/-- C7 witness: targeting owner group-1 in the concrete state delivers
exactly once to the instance with parent group-1 and never to the
instance with parent group-2. -/
theorem notify_targeted_spec_witness :
    (exampleNotifyState.notify_extension "group-1" exampleMessage).countP
        (fun d => d.plugin == 1) = 1
  ∧ (exampleNotifyState.notify_extension "group-1" exampleMessage).countP
        (fun d => d.plugin == 2) = 0 :=
  ⟨((notify_targeted_spec exampleNotifyState "group-1" exampleMessage).2.2
      1).trans (by decide),
   ((notify_targeted_spec exampleNotifyState "group-1" exampleMessage).2.2
      2).trans (by decide)⟩

/-- C8: State.new performs exactly one persistence-backend operation, a
load; the resulting data is the loaded data with only the id field
replaced by the given session id; the filesystem registry resolves the
name "local" to the local filesystem backend; the token list and the
language-server registry are empty; and the given backend is stored as
the persistor. -/
theorem new_spec (id : Nat) (extensions_manager : ExtensionsManager)
    (persistor : Persistor) :
    (State.new id extensions_manager persistor).2 = [PersistorOp.load]
  ∧ (State.new id extensions_manager persistor).1.data
      = { persistor.load with id := id }
  ∧ (State.new id extensions_manager persistor).1.get_fs_by_name "local"
      = some Filesystem.localFilesystem
  ∧ (State.new id extensions_manager persistor).1.tokens = []
  ∧ (State.new id extensions_manager persistor).1.language_servers = []
  ∧ (State.new id extensions_manager persistor).1.persistor
      = some persistor :=
  ⟨rfl, rfl, rfl, rfl, rfl, rfl⟩

/-- The reload loop produces, for each running instance in catalog
order, the contiguous block lock-acquire, unload, init, and nothing for
manifest records. -/
theorem runExtensionsLoop_eq (l : List LoadedExtension) :
    runExtensionsLoop l
      = (l.filterMap pluginOf).flatMap
          (fun p => [ReloadEvent.lockAcquire p, ReloadEvent.unload p,
            ReloadEvent.init p]) := by
  induction l with
  | nil => rfl
  | cons r rest ih =>
      cases r <;>
        simp [runExtensionsLoop, pluginOf, List.filterMap_cons, ih]

/-- The reload loop performs exactly one lock acquisition per running
instance record. -/
theorem runExtensionsLoop_countLocks (l : List LoadedExtension) :
    (runExtensionsLoop l).countP isLockEvent
      = l.countP (fun r => (pluginOf r).isSome) := by
  induction l with
  | nil => rfl
  | cons r rest ih =>
      cases r <;>
        simp [runExtensionsLoop, pluginOf, isLockEvent,
          List.countP_cons, ih]

/-- C9: run_extensions processes the catalog sequentially: its event
trace is, for each running-instance record in catalog iteration order,
the contiguous block lock-acquire (the single await point on that
instance), then unload, then init, with manifest-only records
contributing nothing; in particular the number of await points equals
the number of running-instance records. -/
theorem reload_all_spec (s : State) :
    s.run_extensions
      = (s.extensions_manager.extensions.filterMap pluginOf).flatMap
          (fun p => [ReloadEvent.lockAcquire p, ReloadEvent.unload p,
            ReloadEvent.init p])
  ∧ s.run_extensions.countP isLockEvent
      = s.extensions_manager.extensions.countP
          (fun r => (pluginOf r).isSome) :=
  ⟨runExtensionsLoop_eq _, runExtensionsLoop_countLocks _⟩
